import Mathlib

set_option maxHeartbeats 1000000

/-!
Verification development for `decomprofile/data_process.py` (class `DataProcess`).

The orchestration code of `data_process.py` is embedded shallowly below.
Numerically heavy collaborators that live outside this file's source
(`measure_tools` / `cutout_tools`: background estimation, 1D Gaussian fits,
FWHM measurement, local-maximum search, WCS transforms, pixel-scale reading,
recentering) are abstract parameters gathered in the `Collab` structure; the
cutout itself is modelled from the specification's external-interface
contract (a square array of side `2*radius+1` centered on the given pixel).
Images are total functions from pixel coordinates to rational intensities;
stamps are lists of rows of rationals, mirroring 2D numpy arrays.  Python
runtime errors (`ValueError`, `AttributeError`, the unbound-local `NameError`,
`IndexError`, `TypeError`) are embedded as the `PyErr` type.  Plotting,
printing and the interactive (`input()`-driven) mask/PSF selection branches
are out of the modelled scope, per the spec's external-interface section.
-/

/-- A field-of-view image: per-pixel rational intensity, indexed by (row, column). -/
abbrev Image := ℤ → ℤ → ℚ

/-- A 2D stamp as numpy stores it: a list of rows of rational pixel values. -/
abbrev Stamp := List (List ℚ)

/-- A (possibly fractional) position in the field, as a pair of rationals. -/
abbrev Pos := ℚ × ℚ

/-- The fits header, reduced to the one field the core reads directly
(`header['EXPTIME']`); WCS and pixel-scale reading are abstract collaborators
that receive the header. -/
structure Header where
  exptimeVal : Option ℚ

/-- Python runtime errors raised (or hit) by the orchestration code. -/
inductive PyErr
  | valueError
  | attributeError
  | nameError
  | indexError
  | typeError
deriving DecidableEq

/-- String constants used by the source (field names of the checkout
checklist, position types, and the recentering kernel name). -/
def sDeltaPix : String := "deltaPix"

/-- Checklist entry for the target stamp. -/
def sTargetStamp : String := "target_stamp"

/-- Checklist entry for the noise map. -/
def sNoise : String := "noise_map"

/-- Checklist entry for the target mask. -/
def sMask : String := "target_mask"

/-- Checklist entry for the PSF list. -/
def sPSFList : String := "PSF_list"

/-- Checklist entry for the PSF-selection index. -/
def sPsfId : String := "psf_id_for_fitting"

/-- The `pixel` position type. -/
def sPixel : String := "pixel"

/-- The `wcs` position type. -/
def sWcs : String := "wcs"

/-- The Gaussian-peak recentering kernel name. -/
def sCenterGaussian : String := "center_gaussian"

/-- External collaborators (decomprofile.tools.* and numpy numerics), kept
abstract: the core orchestration is proved for every behaviour of these. -/
structure Collab where
  /-- `fit_data_oneD_gaussian`: 1D sample to (mean, sigma). -/
  fitG : List ℚ → ℚ × ℚ
  /-- `esti_bgkstd`: background standard deviation of a stamp. -/
  esti : Stamp → ℚ
  /-- `np.sqrt` applied elementwise (abstract numeric routine). -/
  sqrtQ : ℚ → ℚ
  /-- The refined center chosen inside `cut_center_auto` for a given image,
  start position, kernel (`none` = the collaborator's default) and radius. -/
  refine : Image → Pos → Option String → ℕ → ℤ × ℤ
  /-- `search_local_max`: candidate PSF positions of an image. -/
  searchLocalMax : Image → List Pos
  /-- `measure_FWHM`: per-sub-aperture FWHM estimates of a stamp. -/
  measFWHM : Stamp → ℕ → List ℚ
  /-- `WCS(header).all_world2pix`: sky to pixel coordinates. -/
  w2p : Option Header → Pos → Pos
  /-- `read_pixel_scale` of a header. -/
  readPixelScale : Header → ℚ
  /-- `measure_bkg`: the background light of the field image. -/
  measureBkg : Image → Image

/-- The session state of a `DataProcess` object.  Fields the Python object
may or may not carry (`hasattr` checks) are `Option`-typed; `apertures` and
the plotting flag are presentation-only and not modelled. -/
structure DataProcess where
  fov_image : Option Image
  target_pos : ℤ × ℤ
  exptime : Option (ℚ ⊕ Image)
  header : Option Header
  fov_noise_map : Option Image
  deltaPix : Option ℚ
  zp : ℚ
  psf_id_for_fitting : Option ℕ
  bkg_std : Option ℚ
  target_stamp : Option Stamp
  noise_map : Option Stamp
  target_mask : Option Stamp
  PSF_pos_list : Option (List Pos)
  PSF_list : Option (List Stamp)

/-- Modelled from the spec: the external `cutout` collaborator returns a
square array of side `2*radius+1` centered on the given pixel position
(`decomprofile.tools.cutout_tools.cutout` is not among the staged sources). -/
def cutout (img : Image) (c : ℤ × ℤ) (r : ℕ) : Stamp :=
  (List.range (2 * r + 1)).map (fun i : ℕ =>
    (List.range (2 * r + 1)).map (fun j : ℕ =>
      img (c.1 - (r : ℤ) + (i : ℤ)) (c.2 - (r : ℤ) + (j : ℤ))))

/-- The numpy shape of a stamp: (number of rows, length of the first row). -/
def shape (st : Stamp) : ℕ × ℕ := (st.length, (st.head?.getD []).length)

/-- `np.sum` of a stamp. -/
def stampSum (st : Stamp) : ℚ := (st.map List.sum).sum

/-- Elementwise division of a stamp by a scalar (`stamp / s`). -/
def stampDiv (st : Stamp) (d : ℚ) : Stamp := st.map (List.map (fun x => x / d))

/-- `np.ones_like` of a stamp. -/
def onesLike (st : Stamp) : Stamp := st.map (List.map (fun _ => (1 : ℚ)))

/-- Elementwise combination of two stamps (numpy broadcasting of two
same-shaped arrays). -/
def stampMap2 (f : ℚ → ℚ → ℚ) (a b : Stamp) : Stamp :=
  List.zipWith (List.zipWith f) a b

/-- `np.mean` of a 1D sample over ℚ (0 for the empty sample, whose numpy
value is nan: see `spreadOK` for how nan comparisons are rendered). -/
def meanQ (l : List ℚ) : ℚ := l.sum / (l.length : ℚ)

/-- The population variance (`np.std` squared, ddof = 0). -/
def varQ (l : List ℚ) : ℚ := meanQ (l.map (fun x => (x - meanQ l) ^ 2))

/-- The exact truth value over the reals of `np.std(l)/np.mean(l) < 0.1`
(line 199 of the source), rendered without square roots: for a positive mean
the inequality is equivalent to `100 * var < mean^2`; for a negative mean the
quotient is nonpositive, hence below 0.1; for mean = 0 numpy yields nan or
inf, whose comparison is False. -/
def spreadOK (l : List ℚ) : Bool :=
  if 0 < meanQ l then decide (100 * varQ l < meanQ l ^ 2)
  else decide (meanQ l < 0)

/-- Insertion into a sorted list of rationals (for `np.median`). -/
def insertQ (x : ℚ) : List ℚ → List ℚ
  | [] => [x]
  | y :: ys => if x ≤ y then x :: y :: ys else y :: insertQ x ys

/-- Ascending insertion sort of rationals. -/
def sortQ (l : List ℚ) : List ℚ := l.foldr insertQ []

/-- `np.median`: middle element of the sorted sample, or the average of the
two middle elements for even length (0 for the empty sample, never consumed
on the code's paths that matter). -/
def medianQ (l : List ℚ) : ℚ :=
  let s := sortQ l
  let n := s.length
  if n = 0 then 0
  else if n % 2 = 1 then (s.get? (n / 2)).getD 0
  else (((s.get? (n / 2 - 1)).getD 0) + ((s.get? (n / 2)).getD 0)) / 2

/-- numpy boolean-mask indexing `arr[select_bool]`. -/
def maskFilter {α : Type} (l : List α) (m : List Bool) : List α :=
  ((l.zip m).filter (fun p => p.2)).map (fun p => p.1)

/-- `arr.min()` of a 1D array (none when empty, where numpy raises). -/
def listMin : List ℚ → Option ℚ
  | [] => none
  | x :: xs => some (xs.foldl min x)

/-- The first index holding the given value (`np.where(arr == v)[0][0]`). -/
def firstIdxOf (x : ℚ) : List ℚ → Option ℕ
  | [] => none
  | y :: ys => if y = x then some 0 else (firstIdxOf x ys).map (· + 1)

/-- Index of the first minimum of a 1D array
(`np.where(arr == arr.min())[0][0]`). -/
def minIdx (l : List ℚ) : Option ℕ := (listMin l).bind (fun m => firstIdxOf m l)

/-- Truncation toward zero of a rational, the conversion `np.int0` applies
to each coordinate (line 64: `np.int0(self.target_pos)`): floor for
nonnegative values, ceiling for negative ones. -/
def truncQ (q : ℚ) : ℤ := if 0 ≤ q then ⌊q⌋ else ⌈q⌉

/-- Python `int(d / 2)` on an integer difference `d`: true division followed
by truncation toward zero (line 260 of the source). -/
def truncHalf (d : ℤ) : ℤ :=
  if 0 ≤ d then ((d.toNat / 2 : ℕ) : ℤ) else -(((-d).toNat / 2 : ℕ) : ℤ)

/-- The python slice `l[k:-k]` (for `k ≥ 1`; also used per-row for
`psf[:, k:-k]`). -/
def sliceDrop {α : Type} (k : ℕ) (l : List α) : List α :=
  (l.drop k).take (l.length - 2 * k)

/-- Lines 258-264 of `checkout`: the symmetric trim of a non-square PSF
stamp.  `cut = int((shape0 - shape1)/2)`; a positive cut trims rows
(`psf[cut:-cut, :]`), a negative cut trims columns (`psf[:, -cut:cut]`),
a zero cut (odd mismatch) leaves the stamp unchanged. -/
def trimStep (p : Stamp) : Stamp :=
  let cut : ℤ := truncHalf ((p.length : ℤ) - ((p.head?.getD []).length : ℤ))
  if 0 < cut then sliceDrop cut.toNat p
  else if cut < 0 then p.map (sliceDrop (-cut).toNat)
  else p

/-- The checkout checklist of required session fields (line 256). -/
def checklist : List String :=
  [sDeltaPix, sTargetStamp, sNoise, sMask, sPSFList, sPsfId]

/-- `hasattr(self, name)` for the checklist's names. -/
def hasField (s : DataProcess) (n : String) : Bool :=
  if n = sDeltaPix then s.deltaPix.isSome
  else if n = sTargetStamp then s.target_stamp.isSome
  else if n = sNoise then s.noise_map.isSome
  else if n = sMask then s.target_mask.isSome
  else if n = sPSFList then s.PSF_list.isSome
  else if n = sPsfId then s.psf_id_for_fitting.isSome
  else false

/-- The diagnostic part of `checkout` (lines 268-273): the names reported
missing, in checklist order, and whether the ready message is printed
(`ct == 0`). -/
def report (s : DataProcess) : List String × Bool :=
  let missing := checklist.filter (fun n => !hasField s n)
  (missing, missing.length == 0)

/-- `DataProcess.checkout` (lines 255-273).  Python mutations performed
before an exception persist on the object, so the (possibly updated) state is
returned alongside the outcome: the report, or the error raised.  Accessing
`self.PSF_list[self.psf_id_for_fitting]` on line 258 happens before any
`hasattr` check, so a missing list or index raises immediately.  The division
by `sum()` is rational division (x / 0 = 0 here; numpy produces non-finite
values but raises nothing, and the shapes agree). -/
def checkout (s : DataProcess) : DataProcess × Except PyErr (List String × Bool) :=
  match s.PSF_list with
  | none => (s, .error .attributeError)
  | some lst =>
    match s.psf_id_for_fitting with
    | none => (s, .error .attributeError)
    | some i =>
      match lst[i]? with
      | none => (s, .error .indexError)
      | some psf =>
        if psf.length ≠ 0 ∧ psf.length ≠ (psf.head?.getD []).length then
          let psf2 := stampDiv (trimStep psf) (stampSum (trimStep psf))
          let s2 := { s with PSF_list := some (lst.set i psf2) }
          if psf2.length ≠ (psf2.head?.getD []).length then (s2, .error .valueError)
          else (s2, .ok (report s2))
        else (s, .ok (report s))

/-- The edge pixels of a stamp, concatenated in the source's order
(line 113): first row, last row, first column, last column. -/
def edgeData (st : Stamp) : List ℚ :=
  (st.head?.getD []) ++ (st.getLast?.getD []) ++
    (st.filterMap List.head?) ++ (st.filterMap List.getLast?)

/-- The edge-outlier fraction for a candidate radius (lines 112-116): cut the
stamp, fit a 1D Gaussian to the edge pixels, and take the fraction exceeding
mean + 2 sigma. -/
def edgeFrac (C : Collab) (img : Image) (c : ℤ × ℤ) (r : ℕ) : ℚ :=
  let ed := edgeData (cutout img c r)
  let ms := C.fitG ed
  (((ed.filter (fun x => decide (ms.1 + 2 * ms.2 < x))).length : ℚ)) / ((ed.length : ℚ))

/-- The radius-selection loop (lines 110-119): walk the list in order, stop
at the first entry whose edge-outlier fraction is below 3%, and keep the last
entry when none qualifies; the empty list leaves the loop variable unbound. -/
def radiusFromList (f : ℕ → ℚ) : List ℕ → Option ℕ
  | [] => none
  | [r] => some r
  | r :: r2 :: rest => if f r < 3 / 100 then some r else radiusFromList f (r2 :: rest)

/-- Radius resolution of `generate_target_materials` (lines 107-119): an
explicit radius wins; otherwise the loop runs over the given list or the
built-in default. -/
def resolveRadius (C : Collab) (img : Image) (c : ℤ × ℤ)
    (radius? : Option ℕ) (radius_list? : Option (List ℕ)) : Option ℕ :=
  match radius? with
  | some r => some r
  | none => radiusFromList (edgeFrac C img c) (radius_list?.getD [30, 35, 40, 45, 50, 60, 70])

/-- Exposure-time resolution (lines 137-142): the stored value, else the
header's `EXPTIME` (a missing header raises `AttributeError` on `.keys()`, a
header without the field raises `ValueError`). -/
def resolveExptime (s : DataProcess) : Except PyErr (ℚ ⊕ Image) :=
  match s.exptime with
  | some e => .ok e
  | none =>
    match s.header with
    | none => .error .attributeError
    | some h =>
      match h.exptimeVal with
      | some v => .ok (Sum.inl v)
      | none => .error .valueError

/-- The noise-map step of `generate_target_materials` (lines 130-146).  A
supplied FOV noise map is simply cut.  Otherwise: estimate `bkg_std` from a
stamp of twice the radius unless the argument was given (in which case the
attribute is left untouched — the argument itself is never stored, exactly as
in the source); resolve the exposure time; `exptime_stamp` is assigned only
when the exposure time is an array, so a scalar exposure time leaves it
unbound and line 145 raises (`.nameError` stands for Python's
UnboundLocalError); finally line 145 reads `self.bkg_std`, raising
`AttributeError` when that attribute was never set.  The exposure-time
resolution and the line-145 expression itself (given the already-updated
session) form `noiseStepB`: -/
def noiseStepB (C : Collab) (s2 : DataProcess) (stamp : Stamp) (radius : ℕ) :
    Except PyErr (DataProcess × Stamp) :=
  match resolveExptime s2 with
  | .error e => .error e
  | .ok (Sum.inl _) => .error .nameError
  | .ok (Sum.inr m) =>
    match s2.bkg_std with
    | none => .error .attributeError
    | some sg =>
      .ok (s2, stampMap2 (fun x e => C.sqrtQ (|x / e| + sg ^ 2)) stamp
        (cutout m s2.target_pos radius))

/-- The noise-map step dispatch: a supplied FOV noise map is cut directly;
otherwise `bkg_std` is estimated (only when the argument is absent — a
provided argument is never stored, exactly as in the source) and the
photon-statistics expression of line 145 runs. -/
def noiseStep (C : Collab) (s : DataProcess) (img : Image) (stamp : Stamp)
    (radius : ℕ) (bkg? : Option ℚ) : Except PyErr (DataProcess × Stamp) :=
  match s.fov_noise_map with
  | some nm => .ok (s, cutout nm s.target_pos radius)
  | none =>
    noiseStepB C
      (if bkg?.isNone then
        { s with bkg_std := some (C.esti (cutout img s.target_pos (radius * 2))) }
      else s) stamp radius

/-- The cutout of the target stamp (lines 121-128): recentered through
`cut_center_auto` when a kernel is given (the second component is the
refined center, adopted as the new target position), a direct cut
otherwise. -/
def cutStep (C : Collab) (img : Image) (pos : ℤ × ℤ) (ck : Option String)
    (radius : ℕ) : Stamp × (ℤ × ℤ) :=
  match ck with
  | some k =>
    (cutout img (C.refine img ((pos.1 : ℚ), (pos.2 : ℚ)) (some k) radius) radius,
      C.refine img ((pos.1 : ℚ), (pos.2 : ℚ)) (some k) radius)
  | none => (cutout img pos radius, pos)

/-- `DataProcess.generate_target_materials` (lines 88-173), for the
non-interactive path (`create_mask=False`; the interactive branch blocks on
`input()` and is outside the modelled scope, as is plotting).  Produces the
target stamp (via `cutStep`), the noise map (via `noiseStep`) and the
all-ones mask; the refined center becomes the new target position before
the noise step runs. -/
def generate_target_materials (C : Collab) (s : DataProcess)
    (cut_kernel : Option String) (radius? : Option ℕ)
    (radius_list? : Option (List ℕ)) (bkg_std? : Option ℚ) :
    Except PyErr DataProcess :=
  match s.fov_image with
  | none => .error .typeError
  | some img =>
    match resolveRadius C img s.target_pos radius? radius_list? with
    | none => .error .nameError
    | some radius =>
      match noiseStep C { s with target_pos := (cutStep C img s.target_pos cut_kernel radius).2 }
          img (cutStep C img s.target_pos cut_kernel radius).1 radius bkg_std? with
      | .error e => .error e
      | .ok (s2, noise) =>
        .ok { s2 with
              target_stamp := some (cutStep C img s.target_pos cut_kernel radius).1,
              noise_map := some noise,
              target_mask := some (onesLike (cutStep C img s.target_pos cut_kernel radius).1) }

/-- The candidate search and filtering of `find_PSF` (lines 191-213): detect
local maxima, cut a stamp for each, reject those whose per-sub-aperture FWHM
spread fails `np.std/np.mean < 0.1`, then boolean-mask the survivors with the
median-FWHM and (when a target flux is known) flux-ratio conditions.  Returns
the kept positions and their mean-FWHM and flux arrays. -/
def psfCandidateFilter (C : Collab) (img : Image) (radius : ℕ)
    (targetFlux? : Option ℚ) : List Pos × List ℚ × List ℚ :=
  let stampOf : Pos → Stamp := fun loc => cutout img (C.refine img loc none radius) radius
  let fwOf : Pos → List ℚ := fun loc => C.measFWHM (stampOf loc) (radius / 5)
  let survivors := (C.searchLocalMax img).filter (fun loc => spreadOK (fwOf loc))
  let FWHMs := survivors.map (fun loc => meanQ (fwOf loc))
  let fluxs := survivors.map (fun loc => stampSum (stampOf loc))
  let med := medianQ FWHMs
  let selBool :=
    match targetFlux? with
    | some t => List.zipWith
        (fun f fl => decide (f < med * (3 / 2)) && decide (fl < t * 10) && decide (t / 2 < fl))
        FWHMs fluxs
    | none => FWHMs.map (fun f => decide (f < med * (3 / 2)))
  (maskFilter survivors selBool, maskFilter FWHMs selBool, maskFilter fluxs selBool)

/-- `DataProcess.find_PSF` (lines 175-240), for the non-interactive path
(`user_option=False`).  Candidate mode filters the field's local maxima and
keeps the single sharpest survivor.  Explicit mode stores the given pixel
positions, or — for `wcs` — transforms `PSF_pos_list[i]` for `i` ranging over
the length of the *previously stored* attribute `self.PSF_pos_list` (the
source's line 238 iterates `range(len(self.PSF_pos_list))`), raising
`AttributeError` when that attribute does not exist yet.  (The source also
stores each transform as a nested 1x2 array rather than a coordinate pair;
the nesting is not reproduced structurally.)  A position type that is neither
`pixel` nor `wcs` leaves the stored attribute as it was.  Finally every
stored position is cut with the Gaussian-peak kernel at the given radius. -/
def find_PSF (C : Collab) (s : DataProcess) (radius : ℕ)
    (psfPos? : Option (List Pos)) (pos_type : String) : Except PyErr DataProcess :=
  match psfPos? with
  | none =>
    match s.fov_image with
    | none => .error .typeError
    | some img =>
      let res := psfCandidateFilter C img radius (s.target_stamp.map stampSum)
      match minIdx res.2.1 with
      | none => .error .valueError
      | some i =>
        match res.1[i]? with
        | none => .error .indexError
        | some p =>
          .ok { s with PSF_pos_list := some [p],
                       PSF_list := some ([p].map (fun q =>
                         cutout img (C.refine img q (some sCenterGaussian) radius) radius)) }
  | some given =>
    let newPos : Except PyErr (Option (List Pos)) :=
      if pos_type = sPixel then .ok (some given)
      else if pos_type = sWcs then
        match s.PSF_pos_list with
        | none => .error .attributeError
        | some old =>
          ((List.range old.length).mapM (fun i =>
            match given[i]? with
            | some q => Except.ok (C.w2p s.header q)
            | none => Except.error PyErr.indexError)).map some
      else .ok s.PSF_pos_list
    match newPos with
    | .error e => .error e
    | .ok none => .error .attributeError
    | .ok (some plist) =>
      match s.fov_image with
      | none => .error .typeError
      | some img =>
        .ok { s with PSF_pos_list := some plist,
                     PSF_list := some (plist.map (fun q =>
                       cutout img (C.refine img q (some sCenterGaussian) radius) radius)) }

/-- `DataProcess.__init__` (lines 34-86).  The target position is mandatory
and resolved per the position type (`wcs` goes through the header's WCS
transform), then converted with `np.int0` (truncation toward zero).  When
requested and possible, the measured background light is subtracted from the
field image.  The pixel scale is read from the header when one is given; the
zero-point defaults to 27; the PSF-selection index starts at 0. -/
def DataProcess.init (C : Collab) (fov_image : Option Image)
    (target_pos : Option Pos) (pos_type : String) (header : Option Header)
    (exptime : Option (ℚ ⊕ Image)) (fov_noise_map : Option Image)
    (rm_bkglight : Bool) (zp : Option ℚ) : Except PyErr DataProcess :=
  match target_pos with
  | none => .error .valueError
  | some tp =>
    let posR : Except PyErr Pos :=
      if pos_type = sPixel then .ok tp
      else if pos_type = sWcs then .ok (C.w2p header tp)
      else .error .valueError
    match posR with
    | .error e => .error e
    | .ok p =>
      let img : Option Image :=
        match fov_image, rm_bkglight with
        | some im, true => some (fun a b => im a b - C.measureBkg im a b)
        | _, _ => fov_image
      .ok { fov_image := img
            target_pos := (truncQ p.1, truncQ p.2)
            exptime := exptime
            header := header
            fov_noise_map := fov_noise_map
            deltaPix := header.map C.readPixelScale
            zp := zp.getD 27
            psf_id_for_fitting := some 0
            bkg_std := none
            target_stamp := none
            noise_map := none
            target_mask := none
            PSF_pos_list := none
            PSF_list := none }

/-- Projection of a call result onto the stored target position. -/
def resTargetPos (e : Except PyErr DataProcess) : Option (ℤ × ℤ) :=
  match e with
  | .ok s => some s.target_pos
  | .error _ => none

/-- Projection of a call result onto the stored noise map. -/
def resNoise (e : Except PyErr DataProcess) : Option Stamp :=
  match e with
  | .ok s => s.noise_map
  | .error _ => none

/-- Projection of a call result onto the stored target stamp. -/
def resStamp (e : Except PyErr DataProcess) : Option Stamp :=
  match e with
  | .ok s => s.target_stamp
  | .error _ => none

/-- Projection of a call result onto the row count of the stored target
stamp (its cutout side, `2*radius+1`). -/
def resStampRows (e : Except PyErr DataProcess) : Option ℕ :=
  match e with
  | .ok s => s.target_stamp.map List.length
  | .error _ => none

/-- A concrete instantiation of the collaborators, for evaluating the
orchestration on explicit inputs. -/
def CC : Collab where
  fitG := fun _ => (0, 1)
  esti := fun _ => 1
  sqrtQ := fun q => q
  refine := fun _ p _ _ => (truncQ p.1, truncQ p.2)
  searchLocalMax := fun _ => []
  measFWHM := fun _ _ => []
  w2p := fun _ p => (p.1 + 1, p.2 + 1)
  readPixelScale := fun _ => 1
  measureBkg := fun im => im

/-- The identically-zero field image. -/
def imgZ : Image := fun _ _ => 0

/-- A session right after initialization: field image present, scalar
exposure time 100, no FOV noise map. -/
def sC1 : DataProcess where
  fov_image := some imgZ
  target_pos := (10, 10)
  exptime := some (Sum.inl 100)
  header := none
  fov_noise_map := none
  deltaPix := some 1
  zp := 27
  psf_id_for_fitting := some 0
  bkg_std := none
  target_stamp := none
  noise_map := none
  target_mask := none
  PSF_pos_list := none
  PSF_list := none

/-- C1: `generate_target_materials` with no FOV-wide noise map and a SCALAR
exposure time does not produce the claimed noise map: the source assigns
`exptime_stamp` only when the exposure time is an array (lines 143-144), so
line 145 reads an unbound local and the call raises (UnboundLocalError,
embedded as `.nameError`) instead of computing
sqrt(|stamp/exptime| + bkg_std^2). -/
theorem C1_scalar_exptime_unbound :
    generate_target_materials CC sC1 none (some 2) none none = .error .nameError := rfl

/-- A fresh session like `sC1` but with a 2D exposure-time map, so that the
noise expression reaches the `self.bkg_std` read. -/
def sC3 : DataProcess := { sC1 with exptime := some (Sum.inr imgZ) }

/-- C3: passing an explicit `bkg_std` argument to a fresh session's
`generate_target_materials` skips the estimation but the provided value is
never stored or used — line 145 reads `self.bkg_std`, an attribute that was
never assigned, raising AttributeError (with an earlier call it would
silently use the stale attribute instead of the argument). -/
theorem C3_provided_bkgstd_ignored :
    generate_target_materials CC sC3 none (some 1) none (some (1 / 2)) =
      .error .attributeError := rfl

/-- C4: on a session that has never stored a PSF position list, `find_PSF`
with an explicit position list and position type `wcs` raises
AttributeError: line 238 iterates `range(len(self.PSF_pos_list))` — the
not-yet-existing attribute — instead of the given list. -/
theorem C4_wcs_fresh_crash :
    find_PSF CC sC1 2 (some [(150, 2)]) sWcs = .error .attributeError := rfl

/-- A session with every checklist field present except the PSF list. -/
def sC2 : DataProcess :=
  { sC1 with target_stamp := some [[1]], noise_map := some [[1]],
             target_mask := some [[1]] }

/-- C2 counterexample: `checkout` on a session whose only missing field is
the PSF list does not report the missing field — it raises AttributeError at
line 258, before the checklist loop runs, refuting "never raises an error on
account of missing fields". -/
theorem C2_missing_psf_list_raises :
    (checkout sC2).2 = .error .attributeError := rfl

/-- C8 counterexample: initialization with the pixel position (10.7, 20.3)
stores (10, 20) — `np.int0` truncates toward zero — which is not the
integer-rounded pair (11, 20). -/
theorem C8_trunc_not_round :
    resTargetPos (DataProcess.init CC none (some (107 / 10, 203 / 10)) sPixel
        none none none false none) = some (10, 20) ∧
      (round (107 / 10 : ℚ), round (203 / 10 : ℚ)) = (11, 20) ∧
      ((10 : ℤ), (20 : ℤ)) ≠ ((11 : ℤ), (20 : ℤ)) := by
  refine ⟨?_, ?_, by decide⟩
  · simp only [DataProcess.init, resTargetPos, sPixel, truncQ]
    norm_num
  · rw [Prod.mk.injEq, round_eq, round_eq]
    norm_num

/-- C8 (amended): for every target position given with position type
`pixel`, initialization succeeds and stores the pair converted by `np.int0`,
i.e. truncated toward zero — which is the given pair itself whenever the
coordinates are integral, but not the round-to-nearest pair in general. -/
theorem C8_amended (C : Collab) (fov : Option Image) (hdr : Option Header)
    (expt : Option (ℚ ⊕ Image)) (fnm : Option Image) (rm : Bool) (zp : Option ℚ)
    (x y : ℚ) :
    ∃ s, DataProcess.init C fov (some (x, y)) sPixel hdr expt fnm rm zp = .ok s ∧
      s.target_pos = (truncQ x, truncQ y) :=
  ⟨_, rfl, rfl⟩

/-- Instantiation of `C8_amended` at a concrete session construction. -/
theorem C8_amended_inst :
    ∃ s, DataProcess.init CC none (some (4, 7)) sPixel none none none false none = .ok s ∧
      s.target_pos = (truncQ 4, truncQ 7) :=
  C8_amended CC none none none none false none 4 7

/-- C10: `checkout` either leaves the session untouched, or rewrites exactly
the PSF-list entry at the current selection index (the trim/renormalize
step); every other field — target position, target stamp, noise map, target
mask, pixel scale, zero-point, the selection index itself, and the other PSF
entries — is unchanged. -/
theorem C10_frame (s : DataProcess) :
    (checkout s).1 = s ∨
    ∃ l i q, s.psf_id_for_fitting = some i ∧ s.PSF_list = some l ∧
      (checkout s).1 = { s with PSF_list := some (l.set i q) } ∧
      ∀ j, j ≠ i → (l.set i q)[j]? = l[j]? := by
  rcases hps : s.PSF_list with _ | l
  · left; simp [checkout, hps]
  · rcases hid : s.psf_id_for_fitting with _ | i
    · left; simp [checkout, hps, hid]
    · rcases hget : l[i]? with _ | p
      · left; simp [checkout, hps, hid, hget]
      · by_cases hc : p.length ≠ 0 ∧ p.length ≠ (p.head?.getD []).length
        · right
          refine ⟨l, i, stampDiv (trimStep p) (stampSum (trimStep p)), rfl, rfl, ?_,
            fun j hj => List.getElem?_set_ne (fun hh => hj hh.symm)⟩
          simp only [checkout, hps, hid, hget, if_pos hc]
          split <;> rfl
        · left
          simp only [checkout, hps, hid, hget, if_neg hc]

/-- Instantiation of `C10_frame` at a concrete session. -/
theorem C10_frame_inst :
    (checkout sC2).1 = sC2 ∨
    ∃ l i q, sC2.psf_id_for_fitting = some i ∧ sC2.PSF_list = some l ∧
      (checkout sC2).1 = { sC2 with PSF_list := some (l.set i q) } ∧
      ∀ j, j ≠ i → (l.set i q)[j]? = l[j]? :=
  C10_frame sC2

/-- `hasField` at the pixel-scale name. -/
theorem hasField_deltaPix (s : DataProcess) : hasField s sDeltaPix = s.deltaPix.isSome := rfl

/-- `hasField` at the target-stamp name. -/
theorem hasField_targetStamp (s : DataProcess) : hasField s sTargetStamp = s.target_stamp.isSome := rfl

/-- `hasField` at the noise-map name. -/
theorem hasField_noise (s : DataProcess) : hasField s sNoise = s.noise_map.isSome := rfl

/-- `hasField` at the target-mask name. -/
theorem hasField_mask (s : DataProcess) : hasField s sMask = s.target_mask.isSome := rfl

/-- `hasField` at the PSF-list name. -/
theorem hasField_psfList (s : DataProcess) : hasField s sPSFList = s.PSF_list.isSome := rfl

/-- `hasField` at the selection-index name. -/
theorem hasField_psfId (s : DataProcess) : hasField s sPsfId = s.psf_id_for_fitting.isSome := rfl

/-- Membership in the missing-field report. -/
theorem mem_report_iff (s : DataProcess) (n : String) :
    n ∈ (report s).1 ↔ n ∈ checklist ∧ hasField s n = false := by
  simp [report, List.mem_filter]

/-- C2 (amended): for a session whose PSF list and selection index are
present, with a valid selected entry that is already square (or empty) —
so that the pre-checklist trim step at line 258 does not interfere — and for
every combination of the remaining session fields, checkout leaves the state
unchanged, never raises, reports exactly the missing checklist fields by
name (`deltaPix`, `target_stamp`, `noise_map`, `target_mask`; the two PSF
fields being present are never reported), and signals readiness exactly when
nothing is missing.  The original claim fails when the PSF list itself is
absent: line 258 dereferences it before any presence check runs. -/
theorem C2_checkout_reports (s : DataProcess) (l : List Stamp) (i : ℕ) (p : Stamp)
    (h1 : s.PSF_list = some l) (h2 : s.psf_id_for_fitting = some i)
    (h3 : l[i]? = some p) (h4 : p.length = 0 ∨ p.length = (p.head?.getD []).length) :
    (checkout s).1 = s ∧
    ∃ m r, (checkout s).2 = .ok (m, r) ∧
      ((sDeltaPix ∈ m) ↔ s.deltaPix = none) ∧
      ((sTargetStamp ∈ m) ↔ s.target_stamp = none) ∧
      ((sNoise ∈ m) ↔ s.noise_map = none) ∧
      ((sMask ∈ m) ↔ s.target_mask = none) ∧
      sPSFList ∉ m ∧ sPsfId ∉ m ∧
      (r = true ↔ m = []) := by
  have hc : ¬(p.length ≠ 0 ∧ p.length ≠ (p.head?.getD []).length) := by
    rcases h4 with h | h <;> simp [h]
  have hck : checkout s = (s, .ok (report s)) := by
    simp only [checkout, h1, h2, h3, if_neg hc]
  rw [hck]
  refine ⟨rfl, (report s).1, (report s).2, rfl, ?_, ?_, ?_, ?_, ?_, ?_, ?_⟩
  · rw [mem_report_iff, hasField_deltaPix]
    cases s.deltaPix <;> simp [checklist]
  · rw [mem_report_iff, hasField_targetStamp]
    cases s.target_stamp <;> simp [checklist]
  · rw [mem_report_iff, hasField_noise]
    cases s.noise_map <;> simp [checklist]
  · rw [mem_report_iff, hasField_mask]
    cases s.target_mask <;> simp [checklist]
  · rw [mem_report_iff, hasField_psfList, h1]
    simp
  · rw [mem_report_iff, hasField_psfId, h2]
    simp
  · show ((report s).1.length == 0) = true ↔ (report s).1 = []
    simp [List.length_eq_zero]

/-- A session with every checklist field present except the noise map, and a
square selected PSF stamp. -/
def sW2 : DataProcess :=
  { sC1 with target_stamp := some [[1]], target_mask := some [[1]],
             PSF_list := some [[[1]]] }

/-- Instantiation of `C2_checkout_reports`: a session missing only the noise
map reports `noise_map` as missing (and nothing else), is not ready, and
checkout raises nothing. -/
theorem C2_checkout_reports_witness :
    (checkout sW2).1 = sW2 ∧
    ∃ m r, (checkout sW2).2 = .ok (m, r) ∧
      ((sDeltaPix ∈ m) ↔ sW2.deltaPix = none) ∧
      ((sTargetStamp ∈ m) ↔ sW2.target_stamp = none) ∧
      ((sNoise ∈ m) ↔ sW2.noise_map = none) ∧
      ((sMask ∈ m) ↔ sW2.target_mask = none) ∧
      sPSFList ∉ m ∧ sPsfId ∉ m ∧
      (r = true ↔ m = []) :=
  C2_checkout_reports sW2 [[[1]]] 0 [[1]] rfl rfl rfl (Or.inr rfl)

/-- The length of the python slice `l[k:-k]`. -/
theorem length_sliceDrop {α : Type} (k : ℕ) (l : List α) :
    (sliceDrop k l).length = l.length - 2 * k := by
  simp [sliceDrop]
  omega

/-- Elements of the python slice `l[k:-k]` come from `l`. -/
theorem mem_sliceDrop {α : Type} {a : α} {k : ℕ} {l : List α}
    (h : a ∈ sliceDrop k l) : a ∈ l :=
  List.mem_of_mem_drop (List.mem_of_mem_take h)

/-- Summing a scalar-divided row divides the row sum. -/
theorem listSum_div (l : List ℚ) (d : ℚ) :
    (l.map (fun x => x / d)).sum = l.sum / d := by
  induction l with
  | nil => simp
  | cons x t ih => simp [ih, add_div]

/-- `np.sum` after dividing a stamp by a scalar. -/
theorem stampSum_stampDiv (st : Stamp) (d : ℚ) :
    stampSum (stampDiv st d) = stampSum st / d := by
  induction st with
  | nil => simp [stampSum, stampDiv]
  | cons r t ih =>
    have hstep : stampSum (stampDiv (r :: t) d) =
        (r.map (fun x => x / d)).sum + stampSum (stampDiv t d) := by
      simp [stampSum, stampDiv]
    have hcons : stampSum (r :: t) = r.sum + stampSum t := by
      simp [stampSum]
    rw [hstep, ih, listSum_div, hcons, add_div]

/-- Dividing a stamp by a scalar keeps its shape. -/
theorem shape_stampDiv (st : Stamp) (d : ℚ) : shape (stampDiv st d) = shape st := by
  cases st <;> simp [shape, stampDiv]

/-- The trim step on a rectangular stamp with more rows than columns:
the resulting shape is `(w + (h - w) % 2, w)` — square exactly when the
row/column difference is even. -/
theorem trimStep_shape_tall (p : Stamp) (h w : ℕ) (hh : p.length = h)
    (hw : ∀ r ∈ p, r.length = w) (hcols : (p.head?.getD []).length = w)
    (hlt : w < h) :
    shape (trimStep p) = (w + (h - w) % 2, w) := by
  have hcut : truncHalf ((p.length : ℤ) - (((p.head?.getD []).length : ℕ) : ℤ)) =
      (((h - w) / 2 : ℕ) : ℤ) := by
    rw [hh, hcols, truncHalf, if_pos (by omega)]
    congr 1
    omega
  by_cases hk : (h - w) / 2 = 0
  · have htrim : trimStep p = p := by
      simp only [trimStep, hcut]
      rw [if_neg (by omega), if_neg (by omega)]
    rw [htrim, shape, hh, hcols, Prod.mk.injEq]
    exact ⟨by omega, rfl⟩
  · have htrim : trimStep p = sliceDrop ((h - w) / 2) p := by
      simp only [trimStep, hcut]
      rw [if_pos (by omega)]
      have harg : ((((h - w) / 2 : ℕ) : ℤ)).toNat = (h - w) / 2 := by omega
      rw [harg]
    have hlen : (sliceDrop ((h - w) / 2) p).length = w + (h - w) % 2 := by
      rw [length_sliceDrop, hh]
      omega
    have hc2 : (((sliceDrop ((h - w) / 2) p).head?.getD []).length) = w := by
      rcases hsl : sliceDrop ((h - w) / 2) p with _ | ⟨r, t⟩
      · have h0 : (sliceDrop ((h - w) / 2) p).length = 0 := by
          rw [hsl]
          rfl
        rw [length_sliceDrop, hh] at h0
        simp only [List.head?_nil, Option.getD_none, List.length_nil]
        omega
      · have hr : r ∈ p := mem_sliceDrop (hsl ▸ List.mem_cons_self r t)
        simp [hw r hr]
    rw [htrim, shape, hlen, hc2]

/-- The trim step on a rectangular stamp with more columns than rows:
the resulting shape is `(h, h + (w - h) % 2)`. -/
theorem trimStep_shape_wide (p : Stamp) (h w : ℕ) (hh : p.length = h)
    (hw : ∀ r ∈ p, r.length = w) (hcols : (p.head?.getD []).length = w)
    (hlt : h < w) (hpos : 0 < h) :
    shape (trimStep p) = (h, h + (w - h) % 2) := by
  have hcut : truncHalf ((p.length : ℤ) - (((p.head?.getD []).length : ℕ) : ℤ)) =
      -(((w - h) / 2 : ℕ) : ℤ) := by
    rw [hh, hcols, truncHalf, if_neg (by omega)]
    congr 1
    omega
  by_cases hk : (w - h) / 2 = 0
  · have htrim : trimStep p = p := by
      simp only [trimStep, hcut]
      rw [if_neg (by omega), if_neg (by omega)]
    rw [htrim, shape, hh, hcols, Prod.mk.injEq]
    exact ⟨rfl, by omega⟩
  · have htrim : trimStep p = p.map (sliceDrop ((w - h) / 2)) := by
      simp only [trimStep, hcut]
      rw [if_neg (by omega), if_pos (by omega)]
      have harg : (-(-(((w - h) / 2 : ℕ) : ℤ))).toNat = (w - h) / 2 := by omega
      rw [harg]
    have hlen : (p.map (sliceDrop ((w - h) / 2))).length = h := by
      rw [List.length_map, hh]
    have hc2 : (((p.map (sliceDrop ((w - h) / 2))).head?.getD []).length) = h + (w - h) % 2 := by
      rcases hp : p with _ | ⟨r, t⟩
      · rw [hp] at hh
        simp at hh
        omega
      · have hr : r ∈ p := by
          rw [hp]
          exact List.mem_cons_self r t
        simp only [List.map_cons, List.head?_cons, Option.getD_some]
        rw [length_sliceDrop, hw r hr]
        omega
    rw [htrim, shape, hlen, hc2]

/-- C5: in `checkout`, a non-square selected PSF stamp of `h` rows and `w`
columns with an even difference is trimmed symmetrically along its longer
axis to a square of side `min h w` and re-normalized to unit sum (zero only
in the degenerate zero-flux stamp, where the division by `sum()` is a
division by zero), and checkout proceeds without error; with an odd
difference the `int((h-w)/2)`-sized trim cannot produce a square, and
checkout raises the invalid-state `ValueError` (after renormalizing and
storing the stamp). -/
theorem C5_psf_trim (s : DataProcess) (l : List Stamp) (i : ℕ) (p : Stamp) (h w : ℕ)
    (h1 : s.PSF_list = some l) (h2 : s.psf_id_for_fitting = some i) (h3 : l[i]? = some p)
    (hh : p.length = h) (hw : ∀ r ∈ p, r.length = w) (hpos : 0 < h) (hne : h ≠ w) :
    (h % 2 = w % 2 →
      ∃ q, (checkout s).1 = { s with PSF_list := some (l.set i q) } ∧
        shape q = (min h w, min h w) ∧ (stampSum q = 1 ∨ stampSum q = 0) ∧
        ∃ out, (checkout s).2 = .ok out) ∧
    (h % 2 ≠ w % 2 → (checkout s).2 = .error .valueError) := by
  have hcols : (p.head?.getD []).length = w := by
    rcases hp : p with _ | ⟨r, t⟩
    · rw [hp] at hh
      simp at hh
      omega
    · have hr : r ∈ p := by
        rw [hp]
        exact List.mem_cons_self r t
      simp [hw r hr]
  have hcond : p.length ≠ 0 ∧ p.length ≠ (p.head?.getD []).length := by
    refine ⟨by rw [hh]; omega, ?_⟩
    rw [hh, hcols]
    exact hne
  have hqshape : shape (stampDiv (trimStep p) (stampSum (trimStep p))) = shape (trimStep p) :=
    shape_stampDiv _ _
  constructor
  · intro hpar
    have hmm : shape (trimStep p) = (min h w, min h w) := by
      rcases Nat.lt_or_ge w h with hlt | hge
      · rw [trimStep_shape_tall p h w hh hw hcols hlt, Prod.mk.injEq]
        constructor <;> omega
      · have hlt2 : h < w := by omega
        rw [trimStep_shape_wide p h w hh hw hcols hlt2 hpos, Prod.mk.injEq]
        constructor <;> omega
    have hq : shape (stampDiv (trimStep p) (stampSum (trimStep p))) = (min h w, min h w) := by
      rw [hqshape, hmm]
    have hlen : (stampDiv (trimStep p) (stampSum (trimStep p))).length = min h w := by
      have := congrArg Prod.fst hq
      simpa [shape] using this
    have hcol : (((stampDiv (trimStep p) (stampSum (trimStep p))).head?.getD []).length) = min h w := by
      have := congrArg Prod.snd hq
      simpa [shape] using this
    have hsq : ¬((stampDiv (trimStep p) (stampSum (trimStep p))).length ≠
        (((stampDiv (trimStep p) (stampSum (trimStep p))).head?.getD []).length)) := by
      rw [hlen, hcol]
      simp
    refine ⟨stampDiv (trimStep p) (stampSum (trimStep p)), ?_, hq, ?_, ?_⟩
    · simp only [checkout, h1, h2, h3, if_pos hcond, if_neg hsq]
    · rw [stampSum_stampDiv]
      by_cases hz : stampSum (trimStep p) = 0
      · right
        rw [hz]
        simp
      · left
        exact div_self hz
    · simp only [checkout, h1, h2, h3, if_pos hcond, if_neg hsq]
      exact ⟨_, rfl⟩
  · intro hpar
    have hmm : (trimStep p).length ≠ ((trimStep p).head?.getD []).length := by
      rcases Nat.lt_or_ge w h with hlt | hge
      · have hsh := trimStep_shape_tall p h w hh hw hcols hlt
        have e1 : (trimStep p).length = w + (h - w) % 2 := by
          have := congrArg Prod.fst hsh
          simpa [shape] using this
        have e2 : ((trimStep p).head?.getD []).length = w := by
          have := congrArg Prod.snd hsh
          simpa [shape] using this
        rw [e1, e2]
        omega
      · have hlt2 : h < w := by omega
        have hsh := trimStep_shape_wide p h w hh hw hcols hlt2 hpos
        have e1 : (trimStep p).length = h := by
          have := congrArg Prod.fst hsh
          simpa [shape] using this
        have e2 : ((trimStep p).head?.getD []).length = h + (w - h) % 2 := by
          have := congrArg Prod.snd hsh
          simpa [shape] using this
        rw [e1, e2]
        omega
    have hsq : (stampDiv (trimStep p) (stampSum (trimStep p))).length ≠
        (((stampDiv (trimStep p) (stampSum (trimStep p))).head?.getD []).length) := by
      have e1 : (stampDiv (trimStep p) (stampSum (trimStep p))).length = (trimStep p).length := by
        have := congrArg Prod.fst hqshape
        simpa [shape] using this
      have e2 : (((stampDiv (trimStep p) (stampSum (trimStep p))).head?.getD []).length) =
          ((trimStep p).head?.getD []).length := by
        have := congrArg Prod.snd hqshape
        simpa [shape] using this
      rw [e1, e2]
      exact hmm
    simp only [checkout, h1, h2, h3, if_pos hcond, if_pos hsq]

/-- A spec-modelled cutout is square of side `2*radius+1`. -/
theorem shape_cutout (img : Image) (c : ℤ × ℤ) (r : ℕ) :
    shape (cutout img c r) = (2 * r + 1, 2 * r + 1) := by
  rw [shape, Prod.mk.injEq]
  constructor
  · rw [cutout, List.length_map, List.length_range]
  · simp only [cutout, List.range_succ_eq_map, List.map_cons, List.head?_cons,
      Option.getD_some, List.length_cons, List.length_map, List.length_range]

/-- Elementwise combination of two same-radius cutouts is square of side
`2*radius+1`. -/
theorem shape_stampMap2_cutout (f : ℚ → ℚ → ℚ) (i1 i2 : Image) (c1 c2 : ℤ × ℤ) (r : ℕ) :
    shape (stampMap2 f (cutout i1 c1 r) (cutout i2 c2 r)) = (2 * r + 1, 2 * r + 1) := by
  rw [shape, Prod.mk.injEq]
  constructor
  · simp only [stampMap2, List.length_zipWith, cutout, List.length_map,
      List.length_range, min_self]
  · simp only [stampMap2, cutout, List.range_succ_eq_map, List.map_cons,
      List.zipWith_cons_cons, List.head?_cons, Option.getD_some, List.length_cons,
      List.length_zipWith, List.length_map, List.length_range, min_self]

/-- A noise map successfully produced by the photon-statistics expression on
a cutout-shaped target stamp is square of side `2*radius+1`. -/
theorem noiseStepB_shape (C : Collab) (s2 : DataProcess) (i2 : Image) (c2 : ℤ × ℤ)
    (radius : ℕ) (s3 : DataProcess) (noise : Stamp)
    (h : noiseStepB C s2 (cutout i2 c2 radius) radius = .ok (s3, noise)) :
    shape noise = (2 * radius + 1, 2 * radius + 1) := by
  rw [noiseStepB] at h
  split at h
  · exact absurd h (by simp)
  · exact absurd h (by simp)
  · split at h
    · exact absurd h (by simp)
    · injection h with h2
      injection h2 with h3 h4
      rw [← h4]
      exact shape_stampMap2_cutout _ _ _ _ _ _

/-- Whatever branch the noise step takes on a cutout-shaped target stamp, a
successfully produced noise map is square of side `2*radius+1`. -/
theorem noiseStep_shape (C : Collab) (s : DataProcess) (img i2 : Image) (c2 : ℤ × ℤ)
    (radius : ℕ) (b? : Option ℚ) (s3 : DataProcess) (noise : Stamp)
    (h : noiseStep C s img (cutout i2 c2 radius) radius b? = .ok (s3, noise)) :
    shape noise = (2 * radius + 1, 2 * radius + 1) := by
  rw [noiseStep] at h
  split at h
  · injection h with h2
    injection h2 with h3 h4
    rw [← h4]
    exact shape_cutout _ _ _
  · exact noiseStepB_shape _ _ _ _ _ _ _ h

/-- The cut step always produces a cutout at its refined center. -/
theorem cutStep_fst (C : Collab) (img : Image) (pos : ℤ × ℤ) (ck : Option String)
    (radius : ℕ) :
    (cutStep C img pos ck radius).1 =
      cutout img (cutStep C img pos ck radius).2 radius := by
  cases ck <;> rfl

/-- C9: after every successful `generate_target_materials` call, the stored
noise map and the stored target stamp exist and have identical shape —
`(2*radius+1, 2*radius+1)` in both the FOV-noise-map branch and the
photon-statistics branch. -/
theorem C9_noise_stamp_shapes (C : Collab) (s : DataProcess) (ck : Option String)
    (r? : Option ℕ) (rl? : Option (List ℕ)) (b? : Option ℚ) (s2 : DataProcess)
    (hgen : generate_target_materials C s ck r? rl? b? = .ok s2) :
    ∃ ns ts, s2.noise_map = some ns ∧ s2.target_stamp = some ts ∧
      shape ns = shape ts := by
  rw [generate_target_materials] at hgen
  split at hgen
  · exact absurd hgen (by simp)
  · rename_i img himg
    split at hgen
    · exact absurd hgen (by simp)
    · rename_i radius hrad
      split at hgen
      · exact absurd hgen (by simp)
      · rename_i s3 noise hns
        injection hgen with h2
        subst h2
        refine ⟨noise, (cutStep C img s.target_pos ck radius).1, rfl, rfl, ?_⟩
        rw [cutStep_fst] at hns ⊢
        rw [shape_cutout]
        exact noiseStep_shape C _ img img _ radius b? s3 noise hns

/-- The session `sC1` with a FOV-wide noise map supplied, so that
`generate_target_materials` succeeds without exposure-time data. -/
def sC6 : DataProcess := { sC1 with fov_noise_map := some imgZ }

/-- Instantiation of `C9_noise_stamp_shapes` on a concrete successful run. -/
theorem C9_witness :
    ∃ ns ts, resNoise (generate_target_materials CC sC6 none (some 1) none none) = some ns ∧
      resStamp (generate_target_materials CC sC6 none (some 1) none none) = some ts ∧
      shape ns = shape ts := by
  obtain ⟨ns, ts, h1, h2, h3⟩ :=
    C9_noise_stamp_shapes CC sC6 none (some 1) none none _ rfl
  exact ⟨ns, ts, h1, h2, h3⟩

/-- The radius loop returns the first entry qualifying under 3%, and the
last entry when none qualifies. -/
theorem radiusFromList_eq (f : ℕ → ℚ) (l : List ℕ) (hl : l ≠ []) :
    radiusFromList f l =
      some ((l.find? (fun r => decide (f r < 3 / 100))).getD (l.getLast hl)) := by
  induction l with
  | nil => exact absurd rfl hl
  | cons a t ih =>
    cases t with
    | nil =>
      by_cases hp : f a < 3 / 100
      · simp [radiusFromList, List.find?, hp]
      · simp [radiusFromList, List.find?, hp, List.getLast]
    | cons b t2 =>
      by_cases hp : f a < 3 / 100
      · simp [radiusFromList, List.find?, hp]
      · have hstep : radiusFromList f (a :: b :: t2) = radiusFromList f (b :: t2) := by
          simp [radiusFromList, hp]
        rw [hstep, ih (by simp)]
        have hfind : (a :: b :: t2).find? (fun r => decide (f r < 3 / 100)) =
            (b :: t2).find? (fun r => decide (f r < 3 / 100)) := by
          simp [List.find?, hp]
        have hlast : (a :: b :: t2).getLast hl = (b :: t2).getLast (by simp) :=
          List.getLast_cons (by simp)
        rw [hfind, hlast]

/-- C6 (amended): with no explicit radius, the chosen cutout radius is the
FIRST entry of the radius list (in iteration order) whose edge-outlier
fraction is below 3% — which is the smallest such entry for ascending lists,
the built-in default included — or the last entry when none qualifies; the
target stamp is cut at that radius. -/
theorem C6_first_qualifying_radius (C : Collab) (s : DataProcess) (img nm : Image)
    (l : List ℕ) (himg : s.fov_image = some img) (hnm : s.fov_noise_map = some nm)
    (hl : l ≠ []) :
    ∃ s2, generate_target_materials C s none none (some l) none = .ok s2 ∧
      s2.target_stamp = some (cutout img s.target_pos
        ((l.find? (fun r => decide (edgeFrac C img s.target_pos r < 3 / 100))).getD
          (l.getLast hl))) := by
  have hrad : resolveRadius C img s.target_pos none (some l) =
      some ((l.find? (fun r => decide (edgeFrac C img s.target_pos r < 3 / 100))).getD
        (l.getLast hl)) := by
    rw [resolveRadius]
    exact radiusFromList_eq _ _ hl
  simp only [generate_target_materials, himg, hrad]
  simp only [noiseStep, hnm]
  exact ⟨_, rfl, rfl⟩

/-- Instantiation of `C6_first_qualifying_radius` on a concrete session and
radius list. -/
theorem C6_witness :
    ∃ s2, generate_target_materials CC sC6 none none (some [7]) none = .ok s2 ∧
      s2.target_stamp = some (cutout imgZ sC6.target_pos
        ((([7] : List ℕ).find? (fun r =>
          decide (edgeFrac CC imgZ sC6.target_pos r < 3 / 100))).getD
          (([7] : List ℕ).getLast (by simp)))) :=
  C6_first_qualifying_radius CC sC6 imgZ imgZ [7] rfl rfl (by simp)

/-- C6 counterexample: with the explicit (descending) radius list [2, 1] on
a flat zero field, the loop keeps radius 2 — the first entry in list order,
giving a stamp of side 5 — even though the smaller entry 1 also has
edge-outlier fraction below 3%; the claimed "smallest qualifying entry"
would be 1 (stamp side 3). -/
theorem C6_not_smallest :
    resStampRows (generate_target_materials CC sC6 none none (some [2, 1]) none) = some 5 ∧
    edgeFrac CC imgZ (10, 10) 1 < 3 / 100 ∧ (1 : ℕ) < 2 := by
  have hf2 : edgeFrac CC imgZ (10, 10) 2 = 0 := by
    norm_num [edgeFrac, edgeData, cutout, imgZ, CC, List.range_succ,
      List.filterMap_cons, List.getLast?, List.head?, List.filter]
  have hf1 : edgeFrac CC imgZ (10, 10) 1 = 0 := by
    norm_num [edgeFrac, edgeData, cutout, imgZ, CC, List.range_succ,
      List.filterMap_cons, List.getLast?, List.head?, List.filter]
  have hrad : resolveRadius CC imgZ (10, 10) none (some [2, 1]) = some 2 := by
    rw [resolveRadius]
    rw [radiusFromList_eq _ _ (by simp)]
    norm_num [List.find?, hf2]
  refine ⟨?_, by rw [hf1]; norm_num, by norm_num⟩
  have hpos : sC6.target_pos = ((10 : ℤ), (10 : ℤ)) := rfl
  simp only [generate_target_materials, sC6, sC1, hrad, noiseStep]
  simp [resStampRows, cutStep, cutout, List.length_map, List.length_range]

/-- A concrete 5x3 all-ones PSF stamp (rows exceed columns by an even
difference). -/
def pW5 : Stamp := [[1, 1, 1], [1, 1, 1], [1, 1, 1], [1, 1, 1], [1, 1, 1]]

/-- A session whose selected PSF stamp is the non-square `pW5`. -/
def sW5 : DataProcess := { sC1 with PSF_list := some [pW5] }

/-- Instantiation of `C5_psf_trim` at the 5x3 all-ones stamp. -/
theorem C5_witness :
    (5 % 2 = 3 % 2 →
      ∃ q, (checkout sW5).1 = { sW5 with PSF_list := some ([pW5].set 0 q) } ∧
        shape q = (min 5 3, min 5 3) ∧ (stampSum q = 1 ∨ stampSum q = 0) ∧
        ∃ out, (checkout sW5).2 = .ok out) ∧
    (5 % 2 ≠ 3 % 2 → (checkout sW5).2 = .error .valueError) :=
  C5_psf_trim sW5 [pW5] 0 pW5 5 3 rfl rfl rfl rfl (by decide) (by decide) (by decide)

/-- Zipping two pointwise images of one list combines them pointwise. -/
theorem zipWith_map_same {α β γ δ : Type} (g : β → γ → δ) (f1 : α → β) (f2 : α → γ)
    (l : List α) :
    List.zipWith g (l.map f1) (l.map f2) = l.map (fun a => g (f1 a) (f2 a)) := by
  induction l with
  | nil => rfl
  | cons a t ih => simp [ih]

/-- Boolean-mask selection by a pointwise predicate is filtering. -/
theorem maskFilter_map {α : Type} (p : α → Bool) (l : List α) :
    maskFilter l (l.map p) = l.filter p := by
  induction l with
  | nil => rfl
  | cons a t ih =>
    simp only [maskFilter, List.map_cons, List.zip_cons_cons, List.filter_cons] at ih ⊢
    cases hp : p a
    · simpa [hp] using ih
    · simpa [hp] using ih

/-- C7 (amended): in candidate-search mode, a position is kept exactly when
it is a detected local maximum whose FWHM spread passes the
`np.std/np.mean < 0.1` test, whose mean FWHM is STRICTLY below 1.5 times the
survivor population's median, and — whenever a target flux exists — whose
integrated flux is STRICTLY between half and ten times the target's (the
source's comparisons on lines 199 and 208 are all strict; a candidate
sitting exactly at 1.5x the median, or exactly at a flux bound, is
rejected). -/
theorem C7_kept_iff (C : Collab) (img : Image) (radius : ℕ) (tf? : Option ℚ) (loc : Pos) :
    loc ∈ (psfCandidateFilter C img radius tf?).1 ↔
      (loc ∈ C.searchLocalMax img ∧
       spreadOK (C.measFWHM (cutout img (C.refine img loc none radius) radius) (radius / 5)) = true ∧
       meanQ (C.measFWHM (cutout img (C.refine img loc none radius) radius) (radius / 5)) <
         medianQ (((C.searchLocalMax img).filter (fun x =>
           spreadOK (C.measFWHM (cutout img (C.refine img x none radius) radius) (radius / 5)))).map
           (fun x => meanQ (C.measFWHM (cutout img (C.refine img x none radius) radius) (radius / 5)))) * (3 / 2) ∧
       (∀ t, tf? = some t →
         stampSum (cutout img (C.refine img loc none radius) radius) < t * 10 ∧
         t / 2 < stampSum (cutout img (C.refine img loc none radius) radius))) := by
  rcases tf? with _ | t
  · simp only [psfCandidateFilter, List.map_map, maskFilter_map, Function.comp]
    simp [List.mem_filter, and_assoc]
    tauto
  · simp only [psfCandidateFilter, zipWith_map_same, maskFilter_map]
    simp [List.mem_filter, and_assoc, Option.some.injEq, forall_eq']
    tauto

/-- Concrete collaborators for the PSF-filter counterexample: two detected
positions whose (one-sample) FWHM measurement equals the stamp's flux. -/
def C7c : Collab :=
  { CC with
    refine := fun _ p _ _ => (if p.1 = 2 then 2 else 5, 0),
    searchLocalMax := fun _ => [(2, 2), (5, 5)],
    measFWHM := fun st _ => [stampSum st] }

/-- A field that is 1 on row 2 and 3 elsewhere. -/
def img7 : Image := fun a _ => if a = 2 then 1 else 3

/-- C7 counterexample: with survivors of mean FWHM 1 and 3 the median is 2,
and the candidate whose FWHM is EXACTLY 1.5 times the median (3 = 2 * 3/2)
is rejected by the strict `FWHMs < np.median(FWHMs)*1.5` mask — the claim's
"at most 1.5 times the median" (which would keep it) does not hold. -/
theorem C7_at_most_fails :
    ((5 : ℚ), (5 : ℚ)) ∉ (psfCandidateFilter C7c img7 0 none).1 ∧
    ((5 : ℚ), (5 : ℚ)) ∈ C7c.searchLocalMax img7 ∧
    spreadOK (C7c.measFWHM (cutout img7 (C7c.refine img7 (5, 5) none 0) 0) (0 / 5)) = true ∧
    meanQ (C7c.measFWHM (cutout img7 (C7c.refine img7 (5, 5) none 0) 0) (0 / 5)) ≤
      medianQ (((C7c.searchLocalMax img7).filter (fun x =>
        spreadOK (C7c.measFWHM (cutout img7 (C7c.refine img7 x none 0) 0) (0 / 5)))).map
        (fun x => meanQ (C7c.measFWHM (cutout img7 (C7c.refine img7 x none 0) 0) (0 / 5)))) * (3 / 2) := by
  have hs1 : cutout img7 (C7c.refine img7 ((2 : ℚ), (2 : ℚ)) none 0) 0 = [[1]] := by
    norm_num [cutout, img7, C7c, CC, List.range_succ]
  have hs2 : cutout img7 (C7c.refine img7 ((5 : ℚ), (5 : ℚ)) none 0) 0 = [[3]] := by
    norm_num [cutout, img7, C7c, CC, List.range_succ]
  have hf1 : C7c.measFWHM [[1]] 0 = [1] := by
    norm_num [C7c, CC, stampSum]
  have hf2 : C7c.measFWHM [[3]] 0 = [3] := by
    norm_num [C7c, CC, stampSum]
  have hsp1 : spreadOK [(1 : ℚ)] = true := by
    norm_num [spreadOK, meanQ, varQ]
  have hsp2 : spreadOK [(3 : ℚ)] = true := by
    norm_num [spreadOK, meanQ, varQ]
  have hm1 : meanQ [(1 : ℚ)] = 1 := by
    norm_num [meanQ]
  have hm3 : meanQ [(3 : ℚ)] = 3 := by
    norm_num [meanQ]
  have hmed : medianQ [(1 : ℚ), 3] = 2 := by
    norm_num [medianQ, sortQ, insertQ]
  have hsearch : C7c.searchLocalMax img7 = [((2 : ℚ), (2 : ℚ)), (5, 5)] := rfl
  have hsurv : (C7c.searchLocalMax img7).filter (fun x =>
      spreadOK (C7c.measFWHM (cutout img7 (C7c.refine img7 x none 0) 0) (0 / 5))) =
      [((2 : ℚ), (2 : ℚ)), (5, 5)] := by
    rw [hsearch]
    simp only [List.filter_cons, List.filter_nil, Nat.zero_div, hs1, hs2, hf1, hf2, hsp1, hsp2]
    rfl
  have hkept : (psfCandidateFilter C7c img7 0 none).1 = [((2 : ℚ), (2 : ℚ))] := by
    simp only [psfCandidateFilter, List.map_map, maskFilter_map, Function.comp]
    rw [hsurv]
    simp only [List.map_cons, List.map_nil, Nat.zero_div, hs1, hs2, hf1, hf2, hm1, hm3, hmed,
      List.filter_cons, List.filter_nil]
    norm_num [hs1, hs2, hf1, hf2, hm1, hm3]
  constructor
  · rw [hkept]
    norm_num
  refine ⟨by rw [hsearch]; norm_num, ?_, ?_⟩
  · rw [hs2]
    norm_num [C7c, CC, stampSum, spreadOK, meanQ, varQ]
  · rw [hsurv]
    simp only [List.map_cons, List.map_nil, Nat.zero_div, hs1, hs2, hf1, hf2, hm1, hm3, hmed]
    norm_num

/-- Instantiation of `C7_kept_iff`: with a target flux of 1, the sharp
candidate (FWHM 1, flux 1) satisfies all strict conditions and is kept. -/
theorem C7_witness :
    ((2 : ℚ), (2 : ℚ)) ∈ (psfCandidateFilter C7c img7 0 (some 1)).1 := by
  have hs1 : cutout img7 (C7c.refine img7 ((2 : ℚ), (2 : ℚ)) none 0) 0 = [[1]] := by
    norm_num [cutout, img7, C7c, CC, List.range_succ]
  have hs2 : cutout img7 (C7c.refine img7 ((5 : ℚ), (5 : ℚ)) none 0) 0 = [[3]] := by
    norm_num [cutout, img7, C7c, CC, List.range_succ]
  have hf1 : C7c.measFWHM [[1]] 0 = [1] := by
    norm_num [C7c, CC, stampSum]
  have hf2 : C7c.measFWHM [[3]] 0 = [3] := by
    norm_num [C7c, CC, stampSum]
  have hsp1 : spreadOK [(1 : ℚ)] = true := by
    norm_num [spreadOK, meanQ, varQ]
  have hsp2 : spreadOK [(3 : ℚ)] = true := by
    norm_num [spreadOK, meanQ, varQ]
  have hm1 : meanQ [(1 : ℚ)] = 1 := by
    norm_num [meanQ]
  have hm3 : meanQ [(3 : ℚ)] = 3 := by
    norm_num [meanQ]
  have hmed : medianQ [(1 : ℚ), 3] = 2 := by
    norm_num [medianQ, sortQ, insertQ]
  have hsearch : C7c.searchLocalMax img7 = [((2 : ℚ), (2 : ℚ)), (5, 5)] := rfl
  have hsurv : (C7c.searchLocalMax img7).filter (fun x =>
      spreadOK (C7c.measFWHM (cutout img7 (C7c.refine img7 x none 0) 0) (0 / 5))) =
      [((2 : ℚ), (2 : ℚ)), (5, 5)] := by
    rw [hsearch]
    simp only [List.filter_cons, List.filter_nil, Nat.zero_div, hs1, hs2, hf1, hf2, hsp1, hsp2]
    rfl
  refine (C7_kept_iff C7c img7 0 (some 1) ((2 : ℚ), (2 : ℚ))).mpr ⟨?_, ?_, ?_, ?_⟩
  · rw [hsearch]
    norm_num
  · rw [hs1]
    norm_num [C7c, CC, stampSum, spreadOK, meanQ, varQ]
  · rw [hsurv]
    simp only [List.map_cons, List.map_nil, Nat.zero_div, hs1, hs2, hf1, hf2, hm1, hm3, hmed]
    norm_num [hs1, hf1, hm1]
  · intro t ht
    injection ht with ht2
    subst ht2
    rw [hs1]
    norm_num [stampSum]
